import Mathlib

/-!
Shallow embedding of the flask-chmod / flask-chown permission managers.

Source files embedded here:
- src/flask_chmod/permission_manager.py  (chmod-triple decision engine)
- src/flask_chown/permission_manager.py  (owner/group decision engine)
- src/flask_chown/permission_manager_redis.py (redis-cached group lookup)

Conventions of the embedding:
- A Python optional string (None or str) is `Option String`; Python
  truthiness of such a value (None and the empty string are falsy) is the
  function `truthy`.
- Raising an exception is `Except`: `PermissionManagerException msg` becomes
  `Except.error msg`; a group-resolver exception is abstracted by an error
  type `ε`.
- The flask "current user" context lookup is out of scope of the engine, so
  the current identity is threaded as an explicit `Option String` argument.
- The redis store is a functional state: a list of key/value pairs plus a
  log of expire calls, threaded through the cached operations explicitly.
-/

/-- Decidable equality of Except outcomes, used to settle concrete
evaluations of the embedded operations by decide. -/
instance {e a : Type} [DecidableEq e] [DecidableEq a] :
    DecidableEq (Except e a)
| Except.error x, Except.error y =>
  match decEq x y with
  | isTrue h => isTrue (h ▸ rfl)
  | isFalse h => isFalse (fun hh => h (Except.error.inj hh))
| Except.error _, Except.ok _ => isFalse (fun hh => Except.noConfusion hh)
| Except.ok _, Except.error _ => isFalse (fun hh => Except.noConfusion hh)
| Except.ok x, Except.ok y =>
  match decEq x y with
  | isTrue h => isTrue (h ▸ rfl)
  | isFalse h => isFalse (fun hh => h (Except.ok.inj hh))

namespace FlaskChmod

/-- Python truthiness of an optional string: None and "" are falsy. -/
def truthy : Option String → Bool
| none => false
| some s => !(s == "")

/-- Membership test of an optional value in a string list, as Python
`x in lst` behaves when `lst` holds strings: None is a member of nothing. -/
def optMem : Option String → List String → Bool
| none, _ => false
| some g, gs => gs.contains g

/-- Valid chmod codes, source line 141: `[1, 10, 11, 100, 101, 110, 111]`. -/
def validChmods : List Nat := [1, 10, 11, 100, 101, 110, 111]

/-- Default message of `_check_chmod`, source line 143. -/
def defaultChmodMsg : String := "Invalid chmod, valid values are 1[01]\x7b1,2\x7d"

/-- Embedding of `PermissionManager._check_chmod` (source lines 135-145):
raises unless the chmod is in the valid list, with an optional message. -/
def check_chmod (chmod : Nat) (msg : Option String) : Except String Unit :=
if chmod ∈ validChmods then Except.ok ()
else Except.error (msg.getD defaultChmodMsg)

/-- State of a `PermissionManager`: the optionally registered
`_get_groups_for_user` callback. The callback may raise (error type ε). -/
structure PermissionManager (ε : Type) where
getGroupsForUser : Option (Option String → Except ε (List String))

/-- Embedding of `getattr(self, "_get_groups_for_user", lambda user: [])`
(source line 126): the registered callback or a constant-empty default. -/
def PermissionManager.resolve (pm : PermissionManager ε) :
    Option String → Except ε (List String) :=
pm.getGroupsForUser.getD (fun _ => Except.ok [])

/-- Embedding of `PermissionManager.user_in_group` (source lines 122-132):
calls the resolver and tests list membership of the group. -/
def PermissionManager.user_in_group (pm : PermissionManager ε)
    (user group : Option String) : Except ε Bool := do
let gs ← pm.resolve user
if optMem group gs then pure true else pure false

/-- Errors that `check_granted` can surface: the InvalidSpec exception of
`_check_chmod`, or an exception escaping the group resolver. -/
inductive EvalError (ε : Type) where
| invalidSpec (msg : String)
| resolverError (e : ε)
deriving DecidableEq

/-- Embedding of `PermissionManager.check_granted` (source lines 148-175).
The current identity (`self.current_user`) is the explicit argument
`current`. The chmod is first validated, then the three digit flags are
parsed and tested in order: other, user, group. -/
def PermissionManager.check_granted (pm : PermissionManager ε)
    (current : Option String) (chmod : Nat) (user group : Option String) :
    Except (EvalError ε) Bool :=
match check_chmod chmod none with
| Except.error m => Except.error (EvalError.invalidSpec m)
| Except.ok _ =>
  let user_allowed := chmod / 100 > 0
  let group_allowed := chmod / 10 % 10 > 0
  let other_allowed := chmod % 10 > 0
  if other_allowed then Except.ok true
  else if user_allowed && (user == current) then Except.ok true
  else if group_allowed then
    match pm.user_in_group current group with
    | Except.error e => Except.error (EvalError.resolverError e)
    | Except.ok true => Except.ok true
    | Except.ok false => Except.ok false
  else Except.ok false

/-- Embedding of the registration-time checks in `PermissionManager.chmod`
(source lines 210-220): the decorator body raises "Missing user" when the
user is falsy on a user-bit code, then "Missing group" when the group is
falsy on a group-bit code; otherwise decoration succeeds. Nothing else in
the decorator runs at registration time. -/
def chmod_register (chmod : Nat) (user group : Option String) :
    Except String Unit :=
if !truthy user && (chmod ∈ [100, 101, 110, 111] : Bool) then
  Except.error "Missing user"
else if !truthy group && (chmod ∈ [110, 10, 111, 11] : Bool) then
  Except.error "Missing group"
else Except.ok ()

/-- Manager whose resolver is the pure function r (never raises). -/
def pureResolver (r : Option String → List String) : PermissionManager ε :=
⟨some (fun u => Except.ok (r u))⟩

end FlaskChmod

namespace FlaskChown

/-- State of a flask_chown `PermissionManager`: the optionally registered
`_get_groups_for_user` callback (error type ε for a raising resolver). -/
structure PermissionManager (ε : Type) where
getGroupsForUser : Option (Option String → Except ε (List String))

/-- Embedding of `getattr(self, "_get_groups_for_user", lambda user: [])`
(flask_chown source line 126). -/
def PermissionManager.resolve (pm : PermissionManager ε) :
    Option String → Except ε (List String) :=
pm.getGroupsForUser.getD (fun _ => Except.ok [])

/-- Embedding of flask_chown `PermissionManager.user_in_group`
(source lines 124-132), identical to the flask_chmod one. -/
def PermissionManager.user_in_group (pm : PermissionManager ε)
    (user group : Option String) : Except ε Bool := do
let gs ← pm.resolve user
if FlaskChmod.optMem group gs then pure true else pure false

/-- Condition of the owner branch of flask_chown `check_granted`, source
line 139: `if owner and self.current_user == owner`. Python `and` makes the
whole condition falsy when `owner` is falsy; otherwise it is the equality,
where None compares equal only to None. -/
def owner_branch (owner current : Option String) : Bool :=
FlaskChmod.truthy owner && (current == owner)

/-- Embedding of flask_chown `PermissionManager.check_granted` (source
lines 134-147): owner branch, then group branch (guarded by the truthiness
of `group`, short-circuiting the resolver call), else False. The current
identity is the explicit argument `current`. -/
def PermissionManager.check_granted (pm : PermissionManager ε)
    (current : Option String) (owner group : Option String) :
    Except ε Bool :=
if owner_branch owner current then Except.ok true
else if FlaskChmod.truthy group then
  match pm.user_in_group current group with
  | Except.error e => Except.error e
  | Except.ok true => Except.ok true
  | Except.ok false => Except.ok false
else Except.ok false

/-- Embedding of the registration-time check of the `chown` decorator
(flask_chown source lines 170-172): raises unless at least one of owner
and group is truthy. -/
def chown_register (owner group : Option String) : Except String Unit :=
if !FlaskChmod.truthy owner && !FlaskChmod.truthy group then
  Except.error ("You have to provide at least" ++ "one out of owner and group")
else Except.ok ()

end FlaskChown

namespace FlaskChownCached

/-- Lowercase hex digit character of a value below 16, as produced by the
Python format `%04x`. -/
def hexDig (n : Nat) : Char :=
if n < 10 then Char.ofNat (48 + n) else Char.ofNat (87 + n)

/-- Four lowercase hex digits of a value below 0x10000, most significant
first, as produced by the Python format `\\u%04x`. -/
def hex4 (n : Nat) : List Char :=
[hexDig (n / 4096 % 16), hexDig (n / 256 % 16), hexDig (n / 16 % 16),
 hexDig (n % 16)]

/-- Escape of one character under Python `json.dumps` with its default
`ensure_ascii=True` (CPython `py_encode_basestring_ascii`): quote and
backslash get two-character escapes, printable ASCII 0x20-0x7e passes
through, \b \t \n \f \r get short escapes, every other BMP character
becomes one `\\uXXXX` group, and a supplementary character becomes a
surrogate pair of two `\\uXXXX` groups. -/
def escC (c : Char) : List Char :=
if c = '"' then ['\\', '"']
else if c = '\\' then ['\\', '\\']
else if 0x20 ≤ c.toNat ∧ c.toNat ≤ 0x7e then [c]
else if c.toNat = 8 then ['\\', 'b']
else if c.toNat = 9 then ['\\', 't']
else if c.toNat = 10 then ['\\', 'n']
else if c.toNat = 12 then ['\\', 'f']
else if c.toNat = 13 then ['\\', 'r']
else if c.toNat < 0x10000 then '\\' :: 'u' :: hex4 c.toNat
else
  ('\\' :: 'u' :: hex4 (0xd800 + (c.toNat - 0x10000) / 0x400)) ++
  ('\\' :: 'u' :: hex4 (0xdc00 + (c.toNat - 0x10000) % 0x400))

/-- JSON escape of a whole string: concatenation of per-character escapes. -/
def escL (l : List Char) : List Char := (l.map escC).flatten

/-- Embedding of `CachedPermissionManager._gen_json_pair` (redis source
lines 49-54): the fixed prefix concatenated with
`json.dumps(\x7b"user": user, "group": group\x7d)` under the default
separators `", "` and `": "` and insertion order user-then-group. -/
def gen_json_pair (user group : String) : String :=
"flask_chown:CachedPermissionManager:granted" ++
  "\x7b\"user\": \"" ++ String.mk (escL user.data) ++
  "\", \"group\": \"" ++ String.mk (escL group.data) ++ "\"\x7d"

/-- Functional state of the redis store: key/value data (most recent entry
first) and a log of the expire calls issued against it. -/
structure RedisStore where
data : List (String × String)
expireCalls : List (String × Int)
deriving DecidableEq

/-- Embedding of `redis.get`: the most recently set value of the key, or
none when absent. -/
def RedisStore.get (s : RedisStore) (k : String) : Option String :=
(s.data.find? (fun p => p.1 == k)).map Prod.snd

/-- Embedding of `redis.set`: record the key/value pair (shadowing any
earlier entry of the same key). -/
def RedisStore.set (s : RedisStore) (k v : String) : RedisStore :=
{ s with data := (k, v) :: s.data }

/-- Embedding of `redis.expire`: log the requested expiry. -/
def RedisStore.expire (s : RedisStore) (k : String) (t : Int) : RedisStore :=
{ s with expireCalls := (k, t) :: s.expireCalls }

/-- Python `str` of a boolean, which is what redis-py sends for a bool
value (the repository test asserts the stored bytes are b"True"). -/
def pyStr (b : Bool) : String := if b then "True" else "False"

/-- Python truthiness of the result of `redis.get`: None and the empty
byte string are falsy. -/
def bytesTruthy : Option String → Bool
| none => false
| some s => !(s == "")

/-- State of a `CachedPermissionManager`: the registered group callback
(pure here; resolver errors are not at issue in the cached claims), the
`_timeout` attribute (none models the attribute never having been
assigned), and the redis store handle. -/
structure CachedPermissionManager where
getGroupsForUser : Option (String → List String)
timeoutAttr : Option Int
redis : RedisStore

/-- Embedding of the inherited (uncached) `PermissionManager.user_in_group`
as invoked through `super()` by `_cache`. -/
def CachedPermissionManager.base_user_in_group (pm : CachedPermissionManager)
    (user group : String) : Bool :=
(pm.getGroupsForUser.getD (fun _ => [])) user |>.contains group

/-- Embedding of the `timeout` property setter (redis source lines 88-94):
a nonnegative value is assigned to `_timeout`; a negative value leaves the
attribute untouched and logs an error (the returned flag). -/
def timeout_setter (cur : Option Int) (t : Int) : Option Int × Bool :=
if t ≥ 0 then (some t, false) else (cur, true)

/-- Value of `_timeout` after `__init__` assigned `self.timeout = timeout`
on a fresh object (redis source lines 36-44): the setter applied to an
unset attribute. -/
def init_timeout (t : Int) : Option Int := (timeout_setter none t).1

/-- Embedding of `CachedPermissionManager._cache` (redis source lines
64-76). Returns the outcome (the boolean, or the AttributeError message
when `_timeout` was never assigned and the `self.timeout > 0` read fails),
the resulting store state, and the number of calls made to the underlying
uncached `user_in_group` (always 1 here). The `redis.set` happens before
the timeout read, so the store is updated even on the error path. -/
def CachedPermissionManager.cacheCall (pm : CachedPermissionManager)
    (user group : String) : Except String Bool × RedisStore × Nat :=
let result := pm.base_user_in_group user group
let key := gen_json_pair user group
let st1 := pm.redis.set key (pyStr result)
match pm.timeoutAttr with
| none =>
  (Except.error "AttributeError: CachedPermissionManager has no attribute _timeout",
   st1, 1)
| some t =>
  if t > 0 then (Except.ok result, st1.expire key t, 1)
  else (Except.ok result, st1, 1)

/-- Embedding of the overriding `CachedPermissionManager.user_in_group`
(redis source lines 56-62): a truthy `redis.get` of the key answers from
the cache (comparing a second `redis.get` against b"True", no resolver
call); otherwise `_cache` runs. Same result triple as `cacheCall`. -/
def CachedPermissionManager.user_in_group (pm : CachedPermissionManager)
    (user group : String) : Except String Bool × RedisStore × Nat :=
let key := gen_json_pair user group
if bytesTruthy (pm.redis.get key) then
  (Except.ok (pm.redis.get key == some "True"), pm.redis, 0)
else pm.cacheCall user group

/-- Value of a lowercase hex digit character, inverse of `hexDig`. -/
def hexVal (c : Char) : Option Nat :=
let n := c.toNat
if 48 ≤ n ∧ n ≤ 57 then some (n - 48)
else if 97 ≤ n ∧ n ≤ 102 then some (n - 87)
else none

/-- Code unit of a short JSON escape character. -/
def escKey (k : Char) : Option Nat :=
if k = '"' then some 34
else if k = '\\' then some 92
else if k = 'n' then some 10
else if k = 'r' then some 13
else if k = 't' then some 9
else if k = 'b' then some 8
else if k = 'f' then some 12
else none

/-- UTF-16 code units of a character: itself in the BMP, else the
surrogate pair. Lean characters are scalar values, so a BMP character is
never itself a surrogate. -/
def utf16Units (c : Char) : List Nat :=
if c.toNat < 0x10000 then [c.toNat]
else [0xd800 + (c.toNat - 0x10000) / 0x400,
      0xdc00 + (c.toNat - 0x10000) % 0x400]

/-- UTF-16 code units of a character list. -/
def unitsL (l : List Char) : List Nat := (l.map utf16Units).flatten

/-- Decoder of a JSON-escaped character sequence into code units; the left
inverse of `escL` used to prove it injective. -/
def decU : List Char → Option (List Nat)
| [] => some []
| c :: r =>
  if c = '\\' then
    match r with
    | [] => none
    | k :: r2 =>
      if k = 'u' then
        match r2 with
        | a :: b :: c2 :: d :: r3 =>
          match hexVal a, hexVal b, hexVal c2, hexVal d with
          | some x, some y, some z, some w =>
            Option.map (fun l => (((x * 16 + y) * 16 + z) * 16 + w) :: l)
              (decU r3)
          | _, _, _, _ => none
        | _ => none
      else
        match escKey k with
        | some m => Option.map (fun l => m :: l) (decU r2)
        | none => none
  else Option.map (fun l => c.toNat :: l) (decU r)

/-- Splitter locating the first unescaped quote: returns the (still
escaped) body before it and the remainder after it. Used to show the
escaped user segment of a cache key is delimited unambiguously. -/
def frame : List Char → Option (List Char × List Char)
| [] => none
| c :: r =>
  if c = '"' then some ([], r)
  else if c = '\\' then
    match r with
    | [] => none
    | k :: r2 => Option.map (fun p => ('\\' :: k :: p.1, p.2)) (frame r2)
  else Option.map (fun p => (c :: p.1, p.2)) (frame r)

end FlaskChownCached

section EngineTheorems

open FlaskChmod

/-- Helper: when the resolver is the pure function r, `user_in_group` is
the membership test of the group in r of the user. -/
theorem user_in_group_of_resolve {ε : Type} (pm : PermissionManager ε)
    (r : Option String → List String)
    (hr : ∀ x, pm.resolve x = Except.ok (r x)) (u g : Option String) :
    pm.user_in_group u g = Except.ok (optMem g (r u)) := by
  simp only [PermissionManager.user_in_group, hr u]
  cases h : optMem g (r u) <;>
    simp [bind, Except.bind, pure, Except.pure, h]

/-- C1: for every valid chmod code, `check_granted` evaluated under an
identity i with a (pure) group resolver r returns True exactly when the
other digit is set, or the user digit is set and the spec user equals i
(Option equality, so absent matches only absent), or the group digit is
set and the spec group is a member of r i; otherwise False. The resolver
hypothesis also covers the unregistered default (r constantly empty). -/
theorem chmod_check_granted_spec {ε : Type} (pm : PermissionManager ε)
    (r : Option String → List String)
    (hr : ∀ x, pm.resolve x = Except.ok (r x))
    (c : Nat) (hc : c ∈ validChmods) (u g i : Option String) :
    pm.check_granted i c u g =
      Except.ok ((c % 10 != 0) || ((c / 100 != 0) && (u == i)) ||
        ((c / 10 % 10 != 0) && optMem g (r i))) := by
  have hug := user_in_group_of_resolve pm r hr i g
  fin_cases hc <;>
    cases hui : (u == i) <;> cases hm : optMem g (r i) <;>
      simp_all [PermissionManager.check_granted, check_chmod, validChmods, hug]

/-- Witness for C1 at the unregistered-resolver default: spec 1 (other
only) grants to an arbitrary identity. -/
theorem chmod_check_granted_spec_witness :
    (⟨none⟩ : PermissionManager Unit).check_granted (some "alice") 1 none none =
      Except.ok true :=
  chmod_check_granted_spec (⟨none⟩ : PermissionManager Unit) (fun _ => [])
    (fun _ => rfl) 1 (by decide) none none (some "alice")

set_option maxRecDepth 10000 in
/-- C2: over the integers 0..999, chmod validation succeeds exactly on the
seven valid codes and raises the InvalidSpec exception on every other. -/
theorem chmod_validation_range (c : Nat) (hc : c ≤ 999) :
    (c ∈ validChmods → check_chmod c none = Except.ok ()) ∧
    (c ∉ validChmods → check_chmod c none = Except.error defaultChmodMsg) := by
  have h : ∀ n : Nat, n < 1000 →
      ((n ∈ validChmods → check_chmod n none = Except.ok ()) ∧
       (n ∉ validChmods → check_chmod n none = Except.error defaultChmodMsg)) := by
    decide
  exact h c (by omega)

/-- Witness for C2 at c = 2: not a valid code, so validation raises. -/
theorem chmod_validation_range_witness :
    check_chmod 2 none = Except.error defaultChmodMsg :=
  (chmod_validation_range 2 (by decide)).2 (by decide)

/-- C3 counterexample: for the invalid code 2, applying the chmod
decorator succeeds (no exception at registration time), and the InvalidSpec
exception is raised only when the guard evaluates a request, inside
`check_granted`. -/
theorem chmod_invalid_deferred_counterexample :
    chmod_register 2 none none = Except.ok () ∧
    (⟨none⟩ : PermissionManager Unit).check_granted none 2 none none =
      Except.error (EvalError.invalidSpec defaultChmodMsg) :=
  ⟨rfl, rfl⟩

/-- C3 amended: for every chmod code outside the valid set, registration
succeeds for any user/group (only the missing-user/missing-group checks
run at registration time), and every evaluation of the guard raises the
InvalidSpec exception inside `check_granted`. -/
theorem chmod_invalid_validation_deferred {ε : Type} (c : Nat)
    (hc : c ∉ validChmods) (u g i : Option String)
    (pm : PermissionManager ε) :
    chmod_register c u g = Except.ok () ∧
    pm.check_granted i c u g =
      Except.error (EvalError.invalidSpec defaultChmodMsg) := by
  have h1 : c ∉ [100, 101, 110, 111] := by
    intro h
    exact hc (by fin_cases h <;> decide)
  have h2 : c ∉ [110, 10, 111, 11] := by
    intro h
    exact hc (by fin_cases h <;> decide)
  constructor
  · simp [chmod_register, h1, h2]
  · simp [PermissionManager.check_granted, check_chmod, hc]

/-- Witness for C3 amended at the invalid code 2. -/
theorem chmod_invalid_validation_deferred_witness :
    chmod_register 2 none none = Except.ok () ∧
    (⟨none⟩ : PermissionManager Unit).check_granted none 2 none none =
      Except.error (EvalError.invalidSpec defaultChmodMsg) :=
  chmod_invalid_validation_deferred 2 (by decide) none none none
    (⟨none⟩ : PermissionManager Unit)

/-- C4: for every chmod code with the user digit set, registering with a
falsy (absent or empty) user raises "Missing user" at registration time. -/
theorem chmod_missing_user_registration (c : Nat)
    (hc : c ∈ [100, 101, 110, 111]) (u g : Option String)
    (hu : truthy u = false) :
    chmod_register c u g = Except.error "Missing user" := by
  fin_cases hc <;> simp [chmod_register, hu]

/-- Witness for C4 at code 100 with an absent user. -/
theorem chmod_missing_user_registration_witness :
    chmod_register 100 none none = Except.error "Missing user" :=
  chmod_missing_user_registration 100 (by decide) none none rfl

/-- C10 counterexample: code 110 has the group digit set and the group is
absent, yet registration raises "Missing user" (the user is also absent and
the missing-user check fires first), not "Missing group". -/
theorem chmod_missing_group_counterexample :
    (110 ∈ [10, 11, 110, 111]) ∧ truthy (none : Option String) = false ∧
    chmod_register 110 none none = Except.error "Missing user" ∧
    "Missing user" ≠ "Missing group" :=
  ⟨by decide, rfl, rfl, by decide⟩

/-- C10 amended: for every chmod code with the group digit set, registering
with a falsy group raises a PermissionManagerException at registration
time; the message is "Missing group" unless the missing-user check fires
first (user digit set and user falsy), in which case it is "Missing user". -/
theorem chmod_missing_group_registration (c : Nat)
    (hc : c ∈ [10, 11, 110, 111]) (u g : Option String)
    (hg : truthy g = false) :
    (∃ m, chmod_register c u g = Except.error m) ∧
    (truthy u = true ∨ c ∉ [100, 101, 110, 111] →
      chmod_register c u g = Except.error "Missing group") := by
  fin_cases hc <;> cases htu : truthy u <;>
    simp_all [chmod_register, hg]

/-- Witness for C10 amended at code 10 with an absent group. -/
theorem chmod_missing_group_registration_witness :
    (∃ m, chmod_register 10 none none = Except.error m) ∧
    (truthy (none : Option String) = true ∨ 10 ∉ [100, 101, 110, 111] →
      chmod_register 10 none none = Except.error "Missing group") :=
  chmod_missing_group_registration 10 (by decide) none none rfl

/-- C7: a resolver error propagates unchanged: `user_in_group` returns the
resolver error itself, and `check_granted`, whenever evaluation reaches the
group lookup (other digit clear, group digit set, and the user branch not
already granting), surfaces that same error instead of a Deny result. -/
theorem resolver_error_propagation {ε : Type} (pm : PermissionManager ε)
    (e : ε) (u g i : Option String) (c : Nat)
    (hru : pm.resolve u = Except.error e)
    (hri : pm.resolve i = Except.error e)
    (hc : c ∈ validChmods) (hother : c % 10 = 0) (hgrp : c / 10 % 10 ≠ 0)
    (huser : c / 100 = 0 ∨ (u == i) = false) :
    pm.user_in_group u g = Except.error e ∧
    pm.check_granted i c u g = Except.error (EvalError.resolverError e) := by
  constructor
  · simp [PermissionManager.user_in_group, hru, bind, Except.bind]
  · fin_cases hc <;> simp_all [PermissionManager.check_granted, check_chmod,
      validChmods, PermissionManager.user_in_group, bind, Except.bind]

/-- Witness for C7: a constantly raising resolver makes a group-only guard
(code 10) surface the resolver error. -/
theorem resolver_error_propagation_witness :
    (⟨some fun _ => Except.error "boom"⟩ : PermissionManager String).user_in_group
      none (some "g") = Except.error "boom" ∧
    (⟨some fun _ => Except.error "boom"⟩ : PermissionManager String).check_granted
      none 10 none (some "g") =
        Except.error (EvalError.resolverError "boom") :=
  resolver_error_propagation _ "boom" none (some "g") none 10 rfl rfl
    (by decide) (by decide) (by decide) (Or.inl (by decide))

/-- C5 counterexample: with both the current identity and the owner absent
in the owner/group form, the owner branch condition of `check_granted` is
false (the truthiness guard on owner blocks it) even though None == None
is true, so a group-only spec yields Deny, not a Grant via owner equality. -/
theorem chown_absent_owner_counterexample :
    FlaskChown.owner_branch none none = false ∧
    ((none : Option String) == (none : Option String)) = true ∧
    FlaskChown.chown_register none (some "users") = Except.ok () ∧
    (⟨none⟩ : FlaskChown.PermissionManager Unit).check_granted none none
      (some "users") = Except.ok false :=
  ⟨rfl, rfl, rfl, rfl⟩

/-- C5 amended: when the owner is absent, `check_granted` of the
owner/group form can never grant through the owner comparison: the owner
branch condition is false for every current identity, and the outcome is
exactly the (truthiness-guarded) group-membership check. -/
theorem chown_absent_owner_no_owner_grant {ε : Type}
    (pm : FlaskChown.PermissionManager ε) (current g : Option String) :
    FlaskChown.owner_branch none current = false ∧
    (pm.check_granted current none g = Except.ok true ↔
      truthy g = true ∧ pm.user_in_group current g = Except.ok true) := by
  constructor
  · rfl
  · have hob : FlaskChown.owner_branch none current = false := rfl
    cases htg : truthy g
    · simp [FlaskChown.PermissionManager.check_granted, hob, htg]
    · cases hr : pm.user_in_group current g with
      | error e =>
        simp [FlaskChown.PermissionManager.check_granted, hob, htg, hr]
      | ok b =>
        cases b <;>
          simp [FlaskChown.PermissionManager.check_granted, hob, htg, hr]

end EngineTheorems

section CachedTheorems

open FlaskChownCached

/-- C6: with a configured timeout, the cached `user_in_group` answers a
hit (the store holds a boolean encoding under the pair key) from the store
alone: the stored boolean is returned (True exactly when the stored value
is the encoding of True), the store is untouched, and the underlying
uncached lookup is not invoked (call count 0). A miss (no value under the
key) invokes the uncached lookup once, stores its boolean under the key
(plus an expire when the timeout is positive), and returns exactly the
uncached result. -/
theorem cached_user_in_group_hit_miss (pm : CachedPermissionManager)
    (user group : String) (t : Int) (ht : pm.timeoutAttr = some t) :
    (∀ v, pm.redis.get (gen_json_pair user group) = some v →
      v = "True" ∨ v = "False" →
      pm.user_in_group user group = (Except.ok (v == "True"), pm.redis, 0)) ∧
    (pm.redis.get (gen_json_pair user group) = none →
      pm.user_in_group user group =
        (Except.ok (pm.base_user_in_group user group),
         (if t > 0 then
            (pm.redis.set (gen_json_pair user group)
                (pyStr (pm.base_user_in_group user group))).expire
              (gen_json_pair user group) t
          else
            pm.redis.set (gen_json_pair user group)
              (pyStr (pm.base_user_in_group user group))),
         1)) := by
  constructor
  · intro v hv hTF
    have hne : (v == "") = false := by
      rcases hTF with h | h <;> subst h <;> decide
    simp [CachedPermissionManager.user_in_group, hv, bytesTruthy, hne]
  · intro h0
    by_cases hpos : t > 0 <;>
      simp [CachedPermissionManager.user_in_group, h0, bytesTruthy,
        CachedPermissionManager.cacheCall, ht, hpos]

/-- Witness for C6: a store already holding the encoding of True under the
pair key answers True without touching the store or the resolver. -/
theorem cached_user_in_group_hit_miss_witness :
    (⟨none, some 0, RedisStore.mk [(gen_json_pair "u" "g", "True")] []⟩ :
        CachedPermissionManager).user_in_group "u" "g" =
      (Except.ok true, RedisStore.mk [(gen_json_pair "u" "g", "True")] [], 0) :=
  (cached_user_in_group_hit_miss
      (⟨none, some 0, RedisStore.mk [(gen_json_pair "u" "g", "True")] []⟩ :
        CachedPermissionManager) "u" "g" 0 rfl).1 "True" rfl (Or.inl rfl)

/-- C8 counterexample: a manager constructed with timeout -5 leaves the
timeout attribute unset, and the next cache operation on an uncached pair
raises an AttributeError instead of behaving as if the timeout were 0 (the
same operation with timeout 0 returns False normally). -/
theorem negative_timeout_counterexample :
    init_timeout (-5) = none ∧
    ((⟨none, init_timeout (-5), RedisStore.mk [] []⟩ :
        CachedPermissionManager).user_in_group "u" "g").1 =
      Except.error
        "AttributeError: CachedPermissionManager has no attribute _timeout" ∧
    ((⟨none, some 0, RedisStore.mk [] []⟩ :
        CachedPermissionManager).user_in_group "u" "g").1 =
      Except.ok false :=
  ⟨rfl, rfl, rfl⟩

/-- C8 amended: a negative timeout is recorded as a configuration error
and ignored, the timeout attribute keeping its previous state, and no
negative value ever reaches the store expire operation (every expire issued
by a cache fill carries the positive configured timeout). But the manager
does not fall back to timeout-0 behaviour: when no valid timeout was ever
assigned (e.g. the manager was constructed with a negative timeout), a
cache fill stores the entry and then raises an AttributeError; when an
earlier nonnegative timeout exists, that value stays in effect. -/
theorem negative_timeout_behavior (cur : Option Int) (t : Int) (ht : t < 0)
    (pm pm2 : CachedPermissionManager) (user group u2 g2 k : String)
    (ttl : Int) (hpm : pm.timeoutAttr = none)
    (hmem : (k, ttl) ∈ ((pm2.cacheCall u2 g2).2.1).expireCalls) :
    timeout_setter cur t = (cur, true) ∧
    pm.cacheCall user group =
      (Except.error
        "AttributeError: CachedPermissionManager has no attribute _timeout",
       pm.redis.set (gen_json_pair user group)
         (pyStr (pm.base_user_in_group user group)), 1) ∧
    ((k, ttl) ∈ pm2.redis.expireCalls ∨
      (0 < ttl ∧ pm2.timeoutAttr = some ttl)) := by
  refine ⟨?_, ?_, ?_⟩
  · simp [timeout_setter]
    omega
  · simp [CachedPermissionManager.cacheCall, hpm]
  · revert hmem
    simp only [CachedPermissionManager.cacheCall]
    cases h2 : pm2.timeoutAttr with
    | none =>
      intro hmem
      exact Or.inl hmem
    | some t2 =>
      by_cases hpos : t2 > 0
      · simp only [hpos, if_true, RedisStore.expire, RedisStore.set]
        intro hmem
        rcases List.mem_cons.mp hmem with h | h
        · have hteq : ttl = t2 := congrArg Prod.snd h
          subst hteq
          exact Or.inr ⟨hpos, rfl⟩
        · exact Or.inl h
      · simp only [hpos, if_false, RedisStore.set]
        intro hmem
        exact Or.inl hmem

/-- Witness for C8 amended: configured timeout 7 on an empty store, so the
cache fill issues exactly one expire, with the positive timeout 7. -/
theorem negative_timeout_behavior_witness :
    timeout_setter none (-1) = (none, true) ∧
    (⟨none, none, RedisStore.mk [] []⟩ :
        CachedPermissionManager).cacheCall "u" "g" =
      (Except.error
        "AttributeError: CachedPermissionManager has no attribute _timeout",
       (RedisStore.mk [] []).set (gen_json_pair "u" "g")
         (pyStr ((⟨none, none, RedisStore.mk [] []⟩ :
           CachedPermissionManager).base_user_in_group "u" "g")), 1) ∧
    ((gen_json_pair "u" "g", (7 : Int)) ∈
        (RedisStore.mk [] []).expireCalls ∨
      (0 < (7 : Int) ∧
        (⟨none, some 7, RedisStore.mk [] []⟩ :
          CachedPermissionManager).timeoutAttr = some 7)) :=
  negative_timeout_behavior none (-1) (by decide)
    (⟨none, none, RedisStore.mk [] []⟩ : CachedPermissionManager)
    (⟨none, some 7, RedisStore.mk [] []⟩ : CachedPermissionManager)
    "u" "g" "u" "g" (gen_json_pair "u" "g") 7 rfl (by decide)

end CachedTheorems

section KeyInjectivity

open FlaskChownCached

/-- Validity bounds of a Lean character: a scalar value, never a
surrogate. -/
theorem char_valid_nat (c : Char) :
    c.toNat < 55296 ∨ (57343 < c.toNat ∧ c.toNat < 1114112) := c.valid
/-- The hex digit map is inverted by hexVal on values below 16. -/
theorem hexVal_hexDig {x : Nat} (hx : x < 16) : hexVal (hexDig x) = some x := by
  have h : ∀ y, y < 16 → hexVal (hexDig y) = some y := by decide
  exact h x hx
/-- A decoding step across one u-escape group. -/
theorem decU_u_group (x : Nat) (hx : x < 65536) (rest : List Char) :
    decU ('\\' :: 'u' :: (hex4 x ++ rest)) =
      Option.map (fun l => x :: l) (decU rest) := by
  have d1 : x / 4096 % 16 < 16 := Nat.mod_lt _ (by norm_num)
  have d2 : x / 256 % 16 < 16 := Nat.mod_lt _ (by norm_num)
  have d3 : x / 16 % 16 < 16 := Nat.mod_lt _ (by norm_num)
  have d4 : x % 16 < 16 := Nat.mod_lt _ (by norm_num)
  rw [decU.eq_def]
  simp only [hex4, List.cons_append, List.nil_append]
  simp [hexVal_hexDig d1, hexVal_hexDig d2, hexVal_hexDig d3,
    hexVal_hexDig d4]
  have hdig : ((x / 4096 % 16 * 16 + x / 256 % 16) * 16 + x / 16 % 16) * 16 +
      x % 16 = x := by omega
  rw [hdig]
/-- A decoding step across the escape of one character. -/
theorem decU_escC (c : Char) (r : List Char) :
    decU (escC c ++ r) = Option.map (fun l => utf16Units c ++ l) (decU r) := by
  have hval := char_valid_nat c
  unfold escC
  split_ifs with h1 h2 h3 h4 h5 h6 h7 h8 h9
  · subst h1
    rw [List.cons_append, List.cons_append, List.nil_append, decU.eq_def]
    simp [escKey, utf16Units]
  · subst h2
    rw [List.cons_append, List.cons_append, List.nil_append, decU.eq_def]
    simp [escKey, utf16Units]
  · have hb : c.toNat < 65536 := by omega
    rw [List.cons_append, List.nil_append, decU.eq_def]
    simp [h2, utf16Units, hb]
  · rw [List.cons_append, List.cons_append, List.nil_append, decU.eq_def]
    simp [escKey, utf16Units, h4]
  · rw [List.cons_append, List.cons_append, List.nil_append, decU.eq_def]
    simp [escKey, utf16Units, h5]
  · rw [List.cons_append, List.cons_append, List.nil_append, decU.eq_def]
    simp [escKey, utf16Units, h6]
  · rw [List.cons_append, List.cons_append, List.nil_append, decU.eq_def]
    simp [escKey, utf16Units, h7]
  · rw [List.cons_append, List.cons_append, List.nil_append, decU.eq_def]
    simp [escKey, utf16Units, h8]
  · rw [List.cons_append, List.cons_append, decU_u_group c.toNat h9 r]
    simp [utf16Units, h9]
  · have hn : c.toNat < 1114112 := by omega
    have hhi : 55296 + (c.toNat - 65536) / 1024 < 65536 := by omega
    have hlo : 56320 + (c.toNat - 65536) % 1024 < 65536 := by omega
    rw [List.append_assoc, List.cons_append, List.cons_append,
      decU_u_group _ hhi, List.cons_append, List.cons_append,
      decU_u_group _ hlo, Option.map_map]
    have h10 : ¬c.toNat < 65536 := h9
    simp [utf16Units, h10, Function.comp_def]
/-- Hex digit characters are neither a quote nor a backslash. -/
theorem hexDig_ne {x : Nat} (hx : x < 16) :
    hexDig x ≠ '"' ∧ hexDig x ≠ '\\' := by
  have h : ∀ y, y < 16 → hexDig y ≠ '"' ∧ hexDig y ≠ '\\' := by decide
  exact h x hx
/-- The splitter consumes a backslash and the following character as a
pair, whatever the second character is. -/
theorem frame_pair (k : Char) (r : List Char) :
    frame ('\\' :: k :: r) =
      Option.map (fun p => ('\\' :: k :: p.1, p.2)) (frame r) := by
  rw [frame.eq_def]
  simp
/-- The splitter copies an ordinary character that is neither a quote
nor a backslash. -/
theorem frame_plain (c : Char) (r : List Char) (hq : ¬c = '"')
    (hs : ¬c = '\\') :
    frame (c :: r) = Option.map (fun p => (c :: p.1, p.2)) (frame r) := by
  rw [frame.eq_def]
  simp [hq, hs]
/-- A framing step across one u-escape group: the splitter copies it. -/
theorem frame_u_group (x : Nat) (rest : List Char) :
    frame ('\\' :: 'u' :: (hex4 x ++ rest)) =
      Option.map (fun p => ('\\' :: 'u' :: (hex4 x ++ p.1), p.2))
        (frame rest) := by
  have d1 := hexDig_ne (Nat.mod_lt (x / 4096) (show 0 < 16 by norm_num))
  have d2 := hexDig_ne (Nat.mod_lt (x / 256) (show 0 < 16 by norm_num))
  have d3 := hexDig_ne (Nat.mod_lt (x / 16) (show 0 < 16 by norm_num))
  have d4 := hexDig_ne (Nat.mod_lt x (show 0 < 16 by norm_num))
  rw [frame_pair]
  simp only [hex4, List.cons_append, List.nil_append]
  rw [frame_plain _ _ d1.1 d1.2, frame_plain _ _ d2.1 d2.2,
    frame_plain _ _ d3.1 d3.2, frame_plain _ _ d4.1 d4.2]
  simp only [Option.map_map]
  cases frame rest <;> simp [hex4]
/-- A framing step across the escape of one character: the escape never
contains an unescaped quote, so the splitter copies it verbatim. -/
theorem frame_escC (c : Char) (r : List Char) :
    frame (escC c ++ r) =
      Option.map (fun p => (escC c ++ p.1, p.2)) (frame r) := by
  by_cases h1 : c = '"'
  · have hesc : escC c = ['\\', '"'] := by rw [escC, if_pos h1]
    rw [hesc, List.cons_append, List.cons_append, List.nil_append,
      frame_pair]
    rfl
  · by_cases h2 : c = '\\'
    · have hesc : escC c = ['\\', '\\'] := by
        rw [escC, if_neg h1, if_pos h2]
      rw [hesc, List.cons_append, List.cons_append, List.nil_append,
        frame_pair]
      rfl
    · by_cases h3 : 32 ≤ c.toNat ∧ c.toNat ≤ 126
      · have hesc : escC c = [c] := by
          rw [escC, if_neg h1, if_neg h2, if_pos h3]
        rw [hesc, List.cons_append, List.nil_append,
          frame_plain _ _ h1 h2]
        rfl
      · by_cases h4 : c.toNat = 8
        · have hesc : escC c = ['\\', 'b'] := by
            rw [escC, if_neg h1, if_neg h2, if_neg h3, if_pos h4]
          rw [hesc, List.cons_append, List.cons_append, List.nil_append,
            frame_pair]
          rfl
        · by_cases h5 : c.toNat = 9
          · have hesc : escC c = ['\\', 't'] := by
              rw [escC, if_neg h1, if_neg h2, if_neg h3, if_neg h4,
                if_pos h5]
            rw [hesc, List.cons_append, List.cons_append,
              List.nil_append, frame_pair]
            rfl
          · by_cases h6 : c.toNat = 10
            · have hesc : escC c = ['\\', 'n'] := by
                rw [escC, if_neg h1, if_neg h2, if_neg h3, if_neg h4,
                  if_neg h5, if_pos h6]
              rw [hesc, List.cons_append, List.cons_append,
                List.nil_append, frame_pair]
              rfl
            · by_cases h7 : c.toNat = 12
              · have hesc : escC c = ['\\', 'f'] := by
                  rw [escC, if_neg h1, if_neg h2, if_neg h3, if_neg h4,
                    if_neg h5, if_neg h6, if_pos h7]
                rw [hesc, List.cons_append, List.cons_append,
                  List.nil_append, frame_pair]
                rfl
              · by_cases h8 : c.toNat = 13
                · have hesc : escC c = ['\\', 'r'] := by
                    rw [escC, if_neg h1, if_neg h2, if_neg h3, if_neg h4,
                      if_neg h5, if_neg h6, if_neg h7, if_pos h8]
                  rw [hesc, List.cons_append, List.cons_append,
                    List.nil_append, frame_pair]
                  rfl
                · by_cases h9 : c.toNat < 65536
                  · have hesc : escC c = '\\' :: 'u' :: hex4 c.toNat := by
                      rw [escC, if_neg h1, if_neg h2, if_neg h3,
                        if_neg h4, if_neg h5, if_neg h6, if_neg h7,
                        if_neg h8, if_pos h9]
                    rw [hesc, List.cons_append, List.cons_append,
                      frame_u_group]
                    rfl
                  · have hesc : escC c =
                        ('\\' :: 'u' ::
                          hex4 (55296 + (c.toNat - 65536) / 1024)) ++
                        ('\\' :: 'u' ::
                          hex4 (56320 + (c.toNat - 65536) % 1024)) := by
                      rw [escC, if_neg h1, if_neg h2, if_neg h3,
                        if_neg h4, if_neg h5, if_neg h6, if_neg h7,
                        if_neg h8, if_neg h9]
                    rw [hesc, List.append_assoc, List.cons_append,
                      List.cons_append, frame_u_group, List.cons_append,
                      List.cons_append, frame_u_group, Option.map_map]
                    cases frame r <;> simp [hex4]
/-- Characters with equal code points are equal. -/
theorem charToNat_inj {c1 c2 : Char} (h : c1.toNat = c2.toNat) : c1 = c2 :=
  Char.ext (UInt32.ext h)
/-- Unfolding of the escape of a cons. -/
theorem escL_cons (c : Char) (l : List Char) :
    escL (c :: l) = escC c ++ escL l := by
  simp [escL]
/-- Unfolding of the code units of a cons. -/
theorem unitsL_cons (c : Char) (l : List Char) :
    unitsL (c :: l) = utf16Units c ++ unitsL l := by
  simp [unitsL]
/-- The decoder inverts the escape of a whole string, yielding its code
units. -/
theorem decU_escL (l : List Char) : decU (escL l) = some (unitsL l) := by
  induction l with
  | nil => rfl
  | cons c l ih =>
    rw [escL_cons, decU_escC, ih, unitsL_cons]
    rfl
/-- Characters produce at least one code unit. -/
theorem utf16Units_ne_nil (c : Char) : utf16Units c ≠ [] := by
  unfold utf16Units
  split <;> simp
/-- Code-unit sequences are injective on character lists: a BMP unit is
never a surrogate by scalar-value validity, so the leading units decide
the leading characters. -/
theorem unitsL_inj (l1 : List Char) :
    ∀ l2, unitsL l1 = unitsL l2 → l1 = l2 := by
  induction l1 with
  | nil =>
    intro l2 h
    cases l2 with
    | nil => rfl
    | cons c l2 =>
      rw [unitsL_cons] at h
      have h0 : utf16Units c ++ unitsL l2 = [] := h.symm
      rcases List.append_eq_nil.mp h0 with ⟨hnil, _⟩
      exact absurd hnil (utf16Units_ne_nil c)
  | cons c1 l1 ih =>
    intro l2 h
    cases l2 with
    | nil =>
      rw [unitsL_cons] at h
      rcases List.append_eq_nil.mp h with ⟨hnil, _⟩
      exact absurd hnil (utf16Units_ne_nil c1)
    | cons c2 l2 =>
      rw [unitsL_cons, unitsL_cons] at h
      have v1 := char_valid_nat c1
      have v2 := char_valid_nat c2
      by_cases b1 : c1.toNat < 65536 <;> by_cases b2 : c2.toNat < 65536
      · simp only [utf16Units, b1, b2, if_pos, List.cons_append,
          List.nil_append, List.cons.injEq] at h
        rw [charToNat_inj h.1, ih l2 h.2]
      · simp only [utf16Units, b1, b2, reduceIte, List.cons_append,
          List.nil_append, List.cons.injEq] at h
        exact absurd h.1 (by omega)
      · simp only [utf16Units, b1, b2, reduceIte, List.cons_append,
          List.nil_append, List.cons.injEq] at h
        exact absurd h.1 (by omega)
      · simp only [utf16Units, b1, b2, reduceIte, List.cons_append,
          List.nil_append, List.cons.injEq] at h
        obtain ⟨hh, hl, ht⟩ := h
        have heq : c1.toNat = c2.toNat := by omega
        rw [charToNat_inj heq, ih l2 ht]
/-- The escape of a character list is injective. -/
theorem escL_inj {l1 l2 : List Char} (h : escL l1 = escL l2) : l1 = l2 := by
  have hm := congrArg decU h
  rw [decU_escL, decU_escL] at hm
  exact unitsL_inj l1 l2 (Option.some.inj hm)
/-- The splitter returns exactly the escaped segment before an appended
closing quote. -/
theorem frame_escL (l : List Char) (t : List Char) :
    frame (escL l ++ '"' :: t) = some (escL l, t) := by
  induction l with
  | nil =>
    simp only [escL, List.map_nil, List.flatten_nil, List.nil_append]
    rw [frame.eq_def]
    simp
  | cons c l ih =>
    rw [escL_cons, List.append_assoc, frame_escC, ih]
    rfl
/-- C9: the cache key function is deterministic and injective on ordered
(user, group) string pairs: two pairs produce the same key exactly when
they are equal componentwise. -/
theorem gen_json_pair_deterministic_injective (u1 g1 u2 g2 : String) :
    gen_json_pair u1 g1 = gen_json_pair u2 g2 ↔ u1 = u2 ∧ g1 = g2 := by
  constructor
  · intro h
    have hd := congrArg String.data h
    have hmk : ∀ l : List Char, (String.mk l).data = l := fun _ => rfl
    simp only [gen_json_pair, String.data_append, hmk,
      List.append_assoc] at hd
    have hA := List.append_cancel_left (List.append_cancel_left hd)
    simp only [List.cons_append, List.nil_append] at hA
    have h1 := congrArg frame hA
    rw [frame_escL, frame_escL] at h1
    have h2 := Option.some.inj h1
    have hu := congrArg Prod.fst h2
    have hg := congrArg Prod.snd h2
    simp only [List.cons.injEq, true_and] at hg
    refine ⟨String.ext (escL_inj hu), String.ext (escL_inj ?_)⟩
    exact List.append_cancel_right hg
  · rintro ⟨h1, h2⟩
    rw [h1, h2]

end KeyInjectivity
